import Mathlib

/-!
Shallow embedding of the fidbach job-application agent, covering the job
store (`src/app/core/db.py`), the DOM compressor
(`src/app/core/dom_parser.py`), the tool catalogue and dispatcher, the
intervention gate and the orchestrator loop
(`src/app/core/agentic_workflow.py`, `src/app/core/tools.py`).

Machine-level concerns (SQLite connections, Selenium, network) are
abstracted: the database is an in-memory list of rows, and the points at
which the Python code catches an arbitrary `Exception` from the
persistence layer are modelled by an explicit `storeFail : Bool`
parameter selecting the exceptional branch of the corresponding
`try/except`.
-/

namespace Fidbach

/-! ## Job store — `src/app/core/db.py`

The `job_queue` table has columns
`(id PRIMARY KEY AUTOINCREMENT, url UNIQUE, title, company,
status DEFAULT 'PENDING', logs, created_at, updated_at)`.
A row is a `Job`; the table is the list `DB.jobs` in insertion order,
`DB.nextId` models the AUTOINCREMENT counter.  `created_at` timestamps
are modelled as naturals that increase with insertion order (SQLite's
`CURRENT_TIMESTAMP` is non-decreasing, and ties are broken by the
engine in row order, which insertion order preserves). -/

inductive Status where
  | PENDING
  | IN_PROGRESS
  | SUCCESS
  | FAILED
deriving DecidableEq, Repr

structure Job where
  id : Nat
  url : String
  title : String
  company : String
  status : Status
  logs : String
  created_at : Nat
deriving DecidableEq, Repr

structure DB where
  jobs : List Job
  nextId : Nat
deriving DecidableEq, Repr

def emptyDB : DB := { jobs := [], nextId := 1 }

/-- The status of the row with id `jid` (SQL `WHERE id = ?` against the
primary key; `find?` since ids are unique in any table reachable through
the API below). -/
def statusOf (db : DB) (jid : Nat) : Option Status :=
  (db.jobs.find? (fun j => j.id == jid)).map (fun j => j.status)

/-- The logs column of the row with id `jid` (empty when absent). -/
def logsOf (db : DB) (jid : Nat) : String :=
  ((db.jobs.find? (fun j => j.id == jid)).map (fun j => j.logs)).getD ""

/-- `url` column has a UNIQUE constraint: the insert in
`add_job_to_queue` raises `sqlite3.IntegrityError` exactly when a row
with the same url already exists. -/
def urlExists (db : DB) (url : String) : Bool :=
  db.jobs.any (fun j => j.url == url)

/-- `db.add_job_to_queue(url, title, company)` (db.py lines 41-63).
`INSERT INTO job_queue (url, title, company, status) VALUES (?,?,?,'PENDING')`;
returns `True` on success, `False` on `IntegrityError` (duplicate url)
and `False` on any other exception (`storeFail = true` selects the
generic `except Exception` branch, e.g. the persistence layer being
unreachable). -/
def add_job_to_queue (storeFail : Bool) (url title company : String)
    (db : DB) : Bool × DB :=
  if storeFail then
    (false, db)
  else if urlExists db url then
    -- sqlite3.IntegrityError: URL already exists in the queue
    (false, db)
  else
    (true,
      { jobs := db.jobs ++
          [{ id := db.nextId, url := url, title := title, company := company,
             status := Status.PENDING, logs := "", created_at := db.nextId }],
        nextId := db.nextId + 1 })

/-- First half of `get_next_pending_job` (db.py line 72):
`SELECT * FROM job_queue WHERE status = 'PENDING' ORDER BY created_at ASC LIMIT 1`.
`List.argmin` returns the first row with minimal `created_at`, matching
the stable ascending scan. -/
def selectPending (db : DB) : Option Job :=
  (db.jobs.filter (fun j => j.status == Status.PENDING)).argmin (fun j => j.created_at)

/-- Second half of `get_next_pending_job` (db.py line 77):
`UPDATE job_queue SET status = 'IN_PROGRESS', updated_at = CURRENT_TIMESTAMP WHERE id = ?`.
The WHERE clause constrains only the id — not the status. -/
def updateClaim (jid : Nat) (db : DB) : DB :=
  { db with
    jobs := db.jobs.map (fun j =>
      if j.id == jid then { j with status := Status.IN_PROGRESS } else j) }

/-- `db.get_next_pending_job()` (db.py lines 65-86): SELECT the oldest
PENDING row, then UPDATE it to IN_PROGRESS by id, and return the row as
selected (`dict(job)` is built from the pre-update row).  Any exception
(`storeFail = true`) is caught, logged and turned into `None`. -/
def get_next_pending_job (storeFail : Bool) (db : DB) : Option Job × DB :=
  if storeFail then
    (none, db)
  else
    match selectPending db with
    | some j => (some j, updateClaim j.id db)
    | none => (none, db)

/-- `db.update_job_status(job_id, status, log_message)` (db.py lines 88-108):
`SET status = ?, logs = COALESCE(logs,'') || CASE WHEN logs IS NULL OR logs = ''
THEN '' ELSE char(10) END || ? WHERE id = ?`. -/
def update_job_status (jid : Nat) (st : Status) (log_message : String)
    (db : DB) : DB :=
  { db with
    jobs := db.jobs.map (fun j =>
      if j.id == jid then
        { j with
          status := st,
          logs := j.logs ++ (if j.logs == "" then "" else "\n") ++ log_message }
      else j) }

/-! ### Two racing claimers

`get_next_pending_job` is the composition `selectPending` then
`updateClaim`, executed as two separate SQL statements.  The race model
below runs two such claimers over the shared `DB`, one primitive
statement per step, under an arbitrary schedule. -/

inductive ClaimPhase where
  | start
  | selected (j : Option Job)
  | done (result : Option Job)
deriving DecidableEq, Repr

/-- One SQL statement of one `get_next_pending_job` call: the SELECT
(from `start`) or the UPDATE-and-return (from `selected`). -/
def claimStep (ph : ClaimPhase) (db : DB) : ClaimPhase × DB :=
  match ph with
  | ClaimPhase.start => (ClaimPhase.selected (selectPending db), db)
  | ClaimPhase.selected (some j) =>
      (ClaimPhase.done (some j), updateClaim j.id db)
  | ClaimPhase.selected none => (ClaimPhase.done none, db)
  | ClaimPhase.done r => (ClaimPhase.done r, db)

structure RaceState where
  db : DB
  workerA : ClaimPhase
  workerB : ClaimPhase
deriving DecidableEq, Repr

/-- Advance worker A (`who = false`) or worker B (`who = true`) by one
statement. -/
def raceStep (who : Bool) (s : RaceState) : RaceState :=
  if who then
    let (ph, db) := claimStep s.workerB s.db
    { s with workerB := ph, db := db }
  else
    let (ph, db) := claimStep s.workerA s.db
    { s with workerA := ph, db := db }

def runSchedule (sched : List Bool) (s : RaceState) : RaceState :=
  sched.foldl (fun s w => raceStep w s) s

/-! Concrete fixtures. -/

def job1 : Job :=
  { id := 1, url := "https://ex.com/job/1", title := "Engineer",
    company := "Acme", status := Status.PENDING, logs := "", created_at := 1 }

def db1 : DB := { jobs := [job1], nextId := 2 }

/-! ## String containment

Python's `needle in haystack` on strings is substring containment. -/

def strContains (haystack needle : String) : Bool :=
  decide (needle.toList <:+: haystack.toList)

/-- Python's `str.lower()` (ASCII case mapping, per character). -/
def lowerString (s : String) : String :=
  String.mk (s.toList.map Char.toLower)

/-- Python's `str.upper()` (ASCII case mapping, per character). -/
def upperString (s : String) : String :=
  String.mk (s.toList.map Char.toUpper)

/-! ## Agent state and the intervention gate —
`agentic_workflow.py` lines 31-44 and 197-216

`AGENT_STATE` is the module-level dict shared with the Streamlit UI. -/

structure AgentState where
  status : String
  logs : List String
  requires_manual_input : Bool
  manual_input_prompt : String
  manual_input_value : Option String
deriving DecidableEq, Repr

def initialAgentState : AgentState :=
  { status := "Idle", logs := [], requires_manual_input := false,
    manual_input_prompt := "", manual_input_value := none }

/-- `update_state(status, log_msg)` (lines 41-44). -/
def update_state (status log_msg : String) (s : AgentState) : AgentState :=
  { s with status := status, logs := s.logs ++ [log_msg] }

/-- The entry half of `request_manual_intervention` (lines 199-202): log
"Paused", raise the flag, store the prompt, reset the value.  Note that
nothing checks whether a request is already pending. -/
def requestStart (prompt : String) (s : AgentState) : AgentState :=
  let s1 := update_state "Paused" ("Manual Input Required: " ++ prompt) s
  { s1 with
    requires_manual_input := true,
    manual_input_prompt := prompt,
    manual_input_value := none }

/-- The external human-input channel (the Streamlit UI) storing a value
into `AGENT_STATE["manual_input_value"]`, which ends the wait loop at
lines 205-206. -/
def supplyValue (v : String) (s : AgentState) : AgentState :=
  { s with manual_input_value := some v }

/-- The exit half of `request_manual_intervention` (lines 208-216): read
the value, clear the pending fields, log "Resumed", return the value. -/
def requestFinish (s : AgentState) : String × AgentState :=
  let value := s.manual_input_value.getD ""
  let s1 := { s with
    requires_manual_input := false,
    manual_input_prompt := "",
    manual_input_value := none }
  (value, update_state "Resumed" "Received manual input." s1)

/-- `JobApplicationAgent.request_manual_intervention(prompt)`
(lines 197-216), under the assumption that the human eventually supplies
`v`: start the request, block until `supplyValue v` has happened, then
finish. -/
def request_manual_intervention (prompt v : String) (s : AgentState) :
    String × AgentState :=
  requestFinish (supplyValue v (requestStart prompt s))

/-! ## Tool catalogue and dispatcher —
`agentic_workflow.py` lines 252-298 (tools list) and 427-431 (dispatch),
`tools.py`

The browser-, model- and profile-backed behaviour of each tool body is
abstracted into a `ToolEnv` of total observation functions.  Totality of
the `trigger_*` bodies is modelled from the spec: `som_injector.py` is
absent from `src/` (only imported), and spec §4.3 requires each tool's
invoke to convert failures into a descriptive observation string.  The
bodies in `tools.py` (`scroll_down`, `scroll_up`, `go_back`,
`get_profile_data`, `infer_answer_from_resume`) visibly catch all
exceptions or are total, so their abstraction as total functions is from
the source.  What is NOT abstracted is the argument plumbing of the
`Tool` lambdas at lines 252-298, which runs before any tool body:
`args.split('|')[1]` raises `IndexError` when `args` contains no `'|'`.
`Except String String` separates a returned observation (`ok`) from an
exception escaping the dispatcher (`error`). -/

structure ToolEnv where
  clickObs : String → String
  typeObs : String → String → String
  uploadObs : String → String → String
  inferObs : String → String
  humanValue : String → String
  profile : List (String × String)
  masterPassword : String
  scrollDownObs : String
  scrollUpObs : String
  goBackObs : String

/-- `tools.get_profile_data(field)` (tools.py lines 87-96). -/
def get_profile_data (env : ToolEnv) (field : String) : String :=
  if field == "password" then
    env.masterPassword
  else
    match env.profile.lookup field with
    | some v => v
    | none => "[" ++ field ++ " not found in profile]"

/-- Auxiliary for `splitPy`: accumulate the current field (reversed). -/
def splitPyAux (sep : Char) : List Char → List Char → List String
  | [], acc => [String.mk acc.reverse]
  | c :: cs, acc =>
    if c = sep then String.mk acc.reverse :: splitPyAux sep cs []
    else splitPyAux sep cs (c :: acc)

/-- Python's `s.split(sep)` for a one-character separator: split at every
occurrence, `"".split(sep) = [""]`, `"12".split('|') = ["12"]`,
`"12|John".split('|') = ["12", "John"]`. -/
def splitPy (sep : Char) (s : String) : List String :=
  splitPyAux sep s.toList []

structure AgentTool where
  name : String
  func : String → Except String String

/-- The nine `Tool` entries built in `run_application_flow`
(agentic_workflow.py lines 252-298).  The two `'id|value'` tools index
`split('|')` at 0 and 1; when the separator is absent the lambda itself
raises `IndexError` before any tool body runs. -/
def tools (env : ToolEnv) : List AgentTool :=
  [ { name := "Click_Element_By_ID",
      func := fun node_id => Except.ok (env.clickObs node_id.trim) },
    { name := "Type_Text_By_ID",
      func := fun args =>
        match splitPy '|' args with
        | p0 :: p1 :: _ => Except.ok (env.typeObs p0.trim p1)
        | _ => Except.error "IndexError: list index out of range" },
    { name := "Upload_File_By_ID",
      func := fun args =>
        match splitPy '|' args with
        | p0 :: p1 :: _ => Except.ok (env.uploadObs p0.trim p1)
        | _ => Except.error "IndexError: list index out of range" },
    { name := "Get_Profile_Data",
      func := fun field => Except.ok (get_profile_data env field) },
    { name := "Infer_Answer",
      func := fun q => Except.ok (env.inferObs q) },
    { name := "Pause_For_Human",
      func := fun p => Except.ok (env.humanValue p) },
    { name := "Scroll_Down",
      func := fun _ => Except.ok env.scrollDownObs },
    { name := "Scroll_Up",
      func := fun _ => Except.ok env.scrollUpObs },
    { name := "Go_Back",
      func := fun _ => Except.ok env.goBackObs } ]

/-- The dispatch in `run_application_flow` (lines 427-431):
`next((t for t in tools if t.name == tool_name), None)`, then
`tool_obj.func(tool_input)` — with no surrounding try/except — or the
"Tool ... not found." observation. -/
def dispatch (env : ToolEnv) (tool_name tool_input : String) :
    Except String String :=
  match (tools env).find? (fun t => t.name == tool_name) with
  | some t => t.func tool_input
  | none => Except.ok ("Tool " ++ tool_name ++ " not found.")

/-- A trivial environment for concrete evaluations. -/
def trivEnv : ToolEnv :=
  { clickObs := fun _ => "clicked", typeObs := fun _ _ => "typed",
    uploadObs := fun _ _ => "uploaded", inferObs := fun _ => "answer",
    humanValue := fun _ => "human", profile := [], masterPassword := "pw",
    scrollDownObs := "Successfully scrolled down.",
    scrollUpObs := "Successfully scrolled up.",
    goBackObs := "Successfully navigated back." }

/-! ## DOM compressor — `src/app/core/dom_parser.py`

`compress_dom` parses HTML with BeautifulSoup and walks
`soup.find_all(interactive_tags)`.  The embedding starts from that
already-parsed element sequence: a `DomElement` carries the fields the
function reads — tag name, inline style, the five attributes it emits,
the stripped text content, and the element's computed absolute XPath
(produced by `get_xpath`, a function of tree position, here a field). -/

structure DomElement where
  tag : String
  style : String
  idAttr : Option String
  nameAttr : Option String
  typeAttr : Option String
  placeholderAttr : Option String
  valueAttr : Option String
  text : String
  xpath : String
deriving DecidableEq, Repr

def interactive_tags : List String :=
  ["a", "button", "input", "select", "textarea", "label"]

/-- `soup.find_all(interactive_tags)` over the document order. -/
def findAllInteractive (els : List DomElement) : List DomElement :=
  els.filter (fun e => interactive_tags.contains e.tag)

/-- One `attrs_str` fragment: Python appends ` attr="val"` only when
`element.get(attr)` is truthy — present and non-empty. -/
def attrPiece (attrName : String) (v : Option String) : String :=
  match v with
  | some s => if s == "" then "" else " " ++ attrName ++ "=\x22" ++ s ++ "\x22"
  | none => ""

/-- `attrs_str` for one element (dom_parser.py lines 51-57): the xpath
first, then `id`, `name`, `type`, `placeholder`, `value` in order. -/
def attrsStr (e : DomElement) : String :=
  " xpath=\x22" ++ e.xpath ++ "\x22"
    ++ attrPiece "id" e.idAttr
    ++ attrPiece "name" e.nameAttr
    ++ attrPiece "type" e.typeAttr
    ++ attrPiece "placeholder" e.placeholderAttr
    ++ attrPiece "value" e.valueAttr

/-- `text_content` (lines 59-61): stripped text, falling back to the
`value` attribute for `<input>` elements. -/
def textContent (e : DomElement) : String :=
  if e.text == "" && e.tag == "input" then
    (e.valueAttr.getD "")
  else
    e.text

/-- The emitted line `<TAG attrs>text</TAG>` (line 64). -/
def elLine (e : DomElement) : String :=
  "<" ++ upperString e.tag ++ attrsStr e ++ ">" ++ textContent e
    ++ "</" ++ upperString e.tag ++ ">"

/-- The element loop of `compress_dom` (lines 41-65): skip when the
lower-cased style contains `'display: none'` or `'visibility: hidden'`
(with the space, exactly as written), skip when `type == 'hidden'`, and
emit the line when there is text or the attribute string contains
`'type'` or `'placeholder'`. -/
def compressLines : List DomElement → List String
  | [] => []
  | e :: rest =>
    if strContains (lowerString e.style) "display: none"
        || strContains (lowerString e.style) "visibility: hidden" then
      compressLines rest
    else if e.typeAttr == some "hidden" then
      compressLines rest
    else if !(textContent e == "") || strContains (attrsStr e) "type"
        || strContains (attrsStr e) "placeholder" then
      elLine e :: compressLines rest
    else
      compressLines rest

/-- `dom_parser.compress_dom` (lines 20-68) from the parsed element
sequence: filter to interactive tags, run the loop, join with newlines. -/
def compress_dom (els : List DomElement) : String :=
  String.intercalate "\n" (compressLines (findAllInteractive els))

/-- Spec-side reading of "inline style declares `display:none` /
`visibility:hidden`": a CSS declaration is insensitive to whitespace
around the colon, so after removing spaces the style contains
`display:none` or `visibility:hidden`.  Defined from the spec's words to
compare against the source-derived filter in `compressLines`. -/
def specStyleHidden (style : String) : Bool :=
  strContains (String.mk ((lowerString style).toList.filter (fun c => c ≠ ' '))) "display:none"
    || strContains (String.mk ((lowerString style).toList.filter (fun c => c ≠ ' '))) "visibility:hidden"

/-! ## Orchestrator — `run_application_flow` and `launch_agent_thread`
(`agentic_workflow.py` lines 218-478)

One loop iteration of `for i in range(max_iterations)` consumes one
entry of a decision oracle: either the alert check fires (`alert`,
`continue`), or `agent.invoke` raises a parsing error (`parseErr`,
synthetic observation appended, `continue`), or it returns an
`AgentFinish` (`finish`, `return True` from the try block) or an
`AgentAction` (`act`, dispatched through the tools list).  The
scratchpad text is threaded through the real loop but no claim refers
to its contents, so the embedding tracks outcome and iteration count. -/

inductive Decision where
  | finish (finalMsg : String)
  | act (tool : String) (toolInput : String)
  | parseErr (errMsg : String)
  | alert (alertText : String)
deriving Repr

/-- The `for i in range(max_iterations)` body, with `fuel` remaining
iterations and `used` iterations already executed.  Returns what the
`try` block would return, together with the number of iterations
executed.  Fuel exhaustion is the `for/else` Timeout branch
(`return False`); an exception escaping a tool lambda aborts to the
outer `except` (`return False`). -/
def runLoop (env : ToolEnv) (oracle : Nat → Decision) :
    Nat → Nat → Bool × Nat
  | 0, used => (false, used)
  | fuel + 1, used =>
    match oracle used with
    | Decision.alert _ => runLoop env oracle fuel (used + 1)
    | Decision.parseErr _ => runLoop env oracle fuel (used + 1)
    | Decision.finish _ => (true, used + 1)
    | Decision.act tname tinput =>
      match dispatch env tname tinput with
      | Except.ok _ => runLoop env oracle fuel (used + 1)
      | Except.error _ => (false, used + 1)

/-- `max_iterations = 50` (line 352). -/
def max_iterations : Nat := 50

/-- The value the `try` block of `run_application_flow` returns, and the
number of loop iterations executed. -/
def tryBlockResult (env : ToolEnv) (oracle : Nat → Decision) : Bool × Nat :=
  runLoop env oracle max_iterations 0

/-- The `finally` block (lines 443-446) ends in an unconditional
`return False`, which in Python replaces whatever the `try` block
returned (or any in-flight exception). -/
def finallyOverride (_tryReturn : Bool) : Bool :=
  false

/-- `JobApplicationAgent.run_application_flow(job_url)`
(lines 218-446): the try-block result filtered through the `finally`
return. -/
def run_application_flow (env : ToolEnv) (oracle : Nat → Decision) : Bool :=
  finallyOverride (tryBlockResult env oracle).1

/-- The per-job tail of `launch_agent_thread` (lines 464-474): run the
flow, then set SUCCESS or FAILED with the corresponding log line. -/
def workerHandleJob (env : ToolEnv) (oracle : Nat → Decision) (jobId : Nat)
    (db : DB) : DB :=
  if run_application_flow env oracle then
    update_job_status jobId Status.SUCCESS "Application completed successfully." db
  else
    update_job_status jobId Status.FAILED "Agent timed out or crashed." db

/-- One iteration of the `while True` consumer loop of
`launch_agent_thread` (lines 456-477): claim, and if a job was claimed,
run it and write the terminal status. -/
def workerCycle (env : ToolEnv) (oracle : Nat → Decision) (storeFail : Bool)
    (db : DB) : DB :=
  match get_next_pending_job storeFail db with
  | (some job, db1) => workerHandleJob env oracle job.id db1
  | (none, db1) => db1

/-! ### Status order along the specified lifecycle -/

/-- `PENDING → IN_PROGRESS → {SUCCESS, FAILED}`: reflexive-transitive
reachability along the specified transitions. -/
def statusLe : Status → Status → Bool
  | Status.PENDING, _ => true
  | Status.IN_PROGRESS, Status.PENDING => false
  | Status.IN_PROGRESS, _ => true
  | Status.SUCCESS, Status.SUCCESS => true
  | Status.SUCCESS, _ => false
  | Status.FAILED, Status.FAILED => true
  | Status.FAILED, _ => false

/-- Lifted to rows that may not exist: a row can be created (PENDING)
but never deleted. -/
def ostatusLe : Option Status → Option Status → Bool
  | none, _ => true
  | some _, none => false
  | some a, some b => statusLe a b

/-! ## Theorems -/

/-- On a duplicate url the insert raises `IntegrityError`: result
`(false, db)`. -/
theorem add_dup_eq (db : DB) (u t c : String) (h : urlExists db u = true) :
    add_job_to_queue false u t c db = (false, db) := by
  simp [add_job_to_queue, h]

/-- On a fresh url the insert succeeds and appends one PENDING row. -/
theorem add_new_eq (db : DB) (u t c : String) (h : urlExists db u = false) :
    add_job_to_queue false u t c db =
      (true,
        { jobs := db.jobs ++
            [{ id := db.nextId, url := u, title := t, company := c,
               status := Status.PENDING, logs := "", created_at := db.nextId }],
          nextId := db.nextId + 1 }) := by
  simp [add_job_to_queue, h]

/-- After any non-failing enqueue of `u`, a row with url `u` exists. -/
theorem urlExists_after_add (db : DB) (u t c : String) :
    urlExists (add_job_to_queue false u t c db).2 u = true := by
  by_cases h : urlExists db u
  · rw [add_dup_eq db u t c h]
    exact h
  · rw [add_new_eq db u t c (by simpa using h)]
    simp [urlExists, List.any_append]

/-- C7: `add_job_to_queue` is idempotent on URL: after a first enqueue
of a url, a second enqueue of the same url returns `false` and leaves
the table exactly as it was — regardless of title/company and of
whether the second call hits a store error. -/
theorem enqueue_idempotent_on_url (db : DB) (u t c t2 c2 : String) (f2 : Bool) :
    (add_job_to_queue f2 u t2 c2 (add_job_to_queue false u t c db).2).1 = false
    ∧ (add_job_to_queue f2 u t2 c2 (add_job_to_queue false u t c db).2).2
      = (add_job_to_queue false u t c db).2 := by
  have hx := urlExists_after_add db u t c
  cases f2 with
  | true => exact ⟨rfl, rfl⟩
  | false =>
    rw [add_dup_eq _ u t2 c2 hx]
    exact ⟨rfl, rfl⟩

/-- C10: the boolean result of `add_job_to_queue` is `false` both when
the persistence layer fails during the insert and when the url is a
duplicate, so the caller cannot tell a failed enqueue from a rejected
duplicate. -/
theorem enqueue_error_and_duplicate_indistinct (db : DB) (u t c : String) :
    (add_job_to_queue true u t c db).1 = false
    ∧ (urlExists db u = true → (add_job_to_queue false u t c db).1 = false) := by
  constructor
  · rfl
  · intro h
    simp [add_job_to_queue, h]

/-- Witness for `enqueue_error_and_duplicate_indistinct` at a queue that
already holds the url. -/
theorem enqueue_error_and_duplicate_indistinct_witness :
    (add_job_to_queue false "https://ex.com/job/1" "Engineer" "Acme" db1).1 = false :=
  (enqueue_error_and_duplicate_indistinct db1 "https://ex.com/job/1" "Engineer" "Acme").2
    (by decide)

/-- C3 counterexample: a store failure during a claim against a queue
that does hold a PENDING job returns `None` — the exact value an
empty queue returns — so the caller cannot distinguish the two. -/
theorem failed_claim_equals_empty_queue_cex :
    (get_next_pending_job true db1).1 = none
    ∧ (get_next_pending_job false emptyDB).1 = none
    ∧ (get_next_pending_job true db1).1 = (get_next_pending_job false emptyDB).1
    ∧ selectPending db1 = some job1 := by
  refine ⟨rfl, rfl, rfl, rfl⟩

/-- C3 amended: `get_next_pending_job` maps every store failure to
`None`, which is also its result on a queue with no PENDING row; the
error is only logged, never surfaced through the return value. -/
theorem claim_store_failure_returns_none (db : DB) :
    (get_next_pending_job true db).1 = none
    ∧ (selectPending db = none → get_next_pending_job false db = (none, db)) := by
  constructor
  · rfl
  · intro h
    simp [get_next_pending_job, h]

/-- Witness for `claim_store_failure_retu...` at the empty queue. -/
theorem claim_store_failure_returns_none_witness :
    (get_next_pending_job true emptyDB).1 = none
    ∧ get_next_pending_job false emptyDB = (none, emptyDB) :=
  ⟨(claim_store_failure_returns_none emptyDB).1,
   (claim_store_failure_returns_none emptyDB).2 (by decide)⟩

/-- C2: the claim is two separate statements (SELECT, then UPDATE by id
with no status condition), not one atomic read-modify-write.  Under the
schedule SELECT-A, SELECT-B, UPDATE-A, UPDATE-B on a queue holding the
single PENDING job 1, both claimers finish holding job 1.  The final
conjunct records that `get_next_pending_job` is exactly this
select-then-update composition. -/
theorem double_claim_race :
    (runSchedule [false, true, false, true]
        { db := db1, workerA := ClaimPhase.start, workerB := ClaimPhase.start }).workerA
      = ClaimPhase.done (some job1)
    ∧ (runSchedule [false, true, false, true]
        { db := db1, workerA := ClaimPhase.start, workerB := ClaimPhase.start }).workerB
      = ClaimPhase.done (some job1)
    ∧ get_next_pending_job false db1 = (some job1, updateClaim job1.id db1) := by
  refine ⟨rfl, rfl, rfl⟩

/-- A run whose first decision is already an `AgentFinish`. -/
def finishOracle : Nat → Decision :=
  fun _ => Decision.finish "Application Complete"

/-- A run of nothing but unparsable model outputs. -/
def parseErrOracle : Nat → Decision :=
  fun _ => Decision.parseErr "Could not parse LLM output"

/-- C1: the `try` block reaches the `AgentFinish` branch and executes
`return True` after one iteration — but the `finally` block's
unconditional `return False` replaces it, so `run_application_flow`
reports failure and the worker marks the claimed job FAILED with the
crash/timeout log line instead of SUCCESS with the final message. -/
theorem finish_decision_reported_as_failure :
    tryBlockResult trivEnv finishOracle = (true, 1)
    ∧ run_application_flow trivEnv finishOracle = false
    ∧ statusOf (workerCycle trivEnv finishOracle false db1) 1 = some Status.FAILED
    ∧ logsOf (workerCycle trivEnv finishOracle false db1) 1 = "Agent timed out or crashed." := by
  refine ⟨rfl, rfl, rfl, rfl⟩

/-- C8 counterexample: after 50 consecutive unparsable decisions the job
is FAILED, but its log is "Agent timed out or crashed." and contains no
"exceeded max iterations". -/
theorem timeout_log_text_cex :
    statusOf (workerCycle trivEnv parseErrOracle false db1) 1 = some Status.FAILED
    ∧ logsOf (workerCycle trivEnv parseErrOracle false db1) 1 = "Agent timed out or crashed."
    ∧ strContains (logsOf (workerCycle trivEnv parseErrOracle false db1) 1)
        "exceeded max iterations" = false := by
  refine ⟨rfl, rfl, by decide⟩

/-- The loop never executes more than `used + fuel` iterations. -/
theorem runLoop_iterations_le (env : ToolEnv) (oracle : Nat → Decision) :
    ∀ fuel used, (runLoop env oracle fuel used).2 ≤ used + fuel := by
  intro fuel
  induction fuel with
  | zero => intro used; simp [runLoop]
  | succ n ih =>
    intro used
    rw [runLoop]
    split
    · exact le_trans (ih (used + 1)) (by omega)
    · exact le_trans (ih (used + 1)) (by omega)
    · show used + 1 ≤ used + (n + 1)
      omega
    · split
      · exact le_trans (ih (used + 1)) (by omega)
      · show used + 1 ≤ used + (n + 1)
        omega

/-- C8 amended: the decision loop executes at most `max_iterations = 50`
iterations for every decision oracle; a run of 50 unparsable decisions
uses exactly 50 iterations and ends the job FAILED, with the job log
containing "Agent timed out or crashed." (not "exceeded max
iterations"). -/
theorem iteration_bound_and_timeout :
    (∀ env oracle, (tryBlockResult env oracle).2 ≤ max_iterations)
    ∧ tryBlockResult trivEnv parseErrOracle = (false, 50)
    ∧ run_application_flow trivEnv parseErrOracle = false
    ∧ statusOf (workerCycle trivEnv parseErrOracle false db1) 1 = some Status.FAILED
    ∧ strContains (logsOf (workerCycle trivEnv parseErrOracle false db1) 1)
        "Agent timed out or crashed." = true := by
  refine ⟨fun env oracle => ?_, rfl, rfl, rfl, by decide⟩
  simpa using runLoop_iterations_le env oracle max_iterations 0

/-- C6 amended: the gate blocks until a value is supplied, returns
exactly the supplied value and clears all pending state; but nothing
guards against a second `request` while one is pending — `requestStart`
simply overwrites the pending prompt (see the counterexample). -/
theorem intervention_returns_value_and_clears (s : AgentState) (p v : String) :
    (request_manual_intervention p v s).1 = v
    ∧ (request_manual_intervention p v s).2.requires_manual_input = false
    ∧ (request_manual_intervention p v s).2.manual_input_prompt = ""
    ∧ (request_manual_intervention p v s).2.manual_input_value = none := by
  refine ⟨rfl, rfl, rfl, rfl⟩

/-- C6 counterexample: with a request for "A" pending (flag raised,
no value yet), a second `request_manual_intervention` entry for "B"
is not rejected: it overwrites the pending prompt, and no field of the
state retains "A". -/
theorem second_request_overwrites_cex :
    (requestStart "A" initialAgentState).requires_manual_input = true
    ∧ (requestStart "A" initialAgentState).manual_input_value = none
    ∧ (requestStart "B" (requestStart "A" initialAgentState)).requires_manual_input = true
    ∧ (requestStart "B" (requestStart "A" initialAgentState)).manual_input_prompt = "B"
    ∧ (requestStart "B" (requestStart "A" initialAgentState)).manual_input_prompt ≠ "A" := by
  refine ⟨rfl, rfl, rfl, rfl, by decide⟩

/-- C4 counterexample: invoking `Type_Text_By_ID` through the dispatcher
on the input `"12"` — which violates the `'id|value'` format — raises
`IndexError` out of the wrapper lambda, and the dispatcher (which has no
try/except) lets it escape instead of returning an observation. -/
theorem type_text_malformed_input_cex :
    dispatch trivEnv "Type_Text_By_ID" "12"
      = Except.error "IndexError: list index out of range" := by
  rfl

/-- C4 amended: the dispatcher returns an observation for every unknown
tool name and for every catalogue tool whose input is in scope for its
body — but inputs to the two `'id|value'` tools that lack the `'|'`
separator raise `IndexError` past the dispatcher (see the
counterexample).  With at least one `'|'` in the input, every dispatch
returns an observation. -/
theorem dispatch_ok_with_separator (env : ToolEnv) (tool_name tool_input : String)
    (h : 2 ≤ (splitPy '|' tool_input).length) :
    (dispatch env tool_name tool_input).isOk = true := by
  have hsplit : ∃ p0 p1 rest, splitPy '|' tool_input = p0 :: p1 :: rest := by
    match hs : splitPy '|' tool_input with
    | [] => rw [hs] at h; simp at h
    | [p] => rw [hs] at h; simp at h
    | p0 :: p1 :: rest => exact ⟨p0, p1, rest, rfl⟩
  obtain ⟨p0, p1, rest, hs⟩ := hsplit
  unfold dispatch
  cases hf : (tools env).find? (fun t => t.name == tool_name) with
  | none => rfl
  | some t =>
    have ht : t ∈ tools env := List.mem_of_find?_eq_some hf
    simp only [tools, List.mem_cons, List.not_mem_nil, or_false] at ht
    rcases ht with rfl | rfl | rfl | rfl | rfl | rfl | rfl | rfl | rfl
    · rfl
    · show (match splitPy '|' tool_input with
        | p0 :: p1 :: _ => Except.ok (env.typeObs p0.trim p1)
        | _ => Except.error "IndexError: list index out of range").isOk = true
      rw [hs]
      rfl
    · show (match splitPy '|' tool_input with
        | p0 :: p1 :: _ => Except.ok (env.uploadObs p0.trim p1)
        | _ => Except.error "IndexError: list index out of range").isOk = true
      rw [hs]
      rfl
    · rfl
    · rfl
    · rfl
    · rfl
    · rfl
    · rfl

/-- Witness for `dispatch_ok_with_separator` on a well-formed
`'id|value'` input. -/
theorem dispatch_ok_with_separator_witness :
    (dispatch trivEnv "Type_Text_By_ID" "12|John").isOk = true :=
  dispatch_ok_with_separator trivEnv "Type_Text_By_ID" "12|John" (by decide)

/-- An `<input>` hidden by an inline style written without a space after
the colon — valid CSS, invisible when rendered. -/
def hiddenNoSpaceInput : DomElement :=
  { tag := "input", style := "display:none", idAttr := none,
    nameAttr := some "q", typeAttr := some "text",
    placeholderAttr := some "x", valueAttr := none, text := "",
    xpath := "/html/body/form/input" }

/-- C5 counterexample: `compress_dom` only skips styles containing
`'display: none'` / `'visibility: hidden'` with a space after the colon,
so an element whose inline style declares `display:none` (no space) is
included in the snapshot. -/
theorem hidden_style_without_space_included_cex :
    specStyleHidden hiddenNoSpaceInput.style = true
    ∧ compressLines (findAllInteractive [hiddenNoSpaceInput])
      = [elLine hiddenNoSpaceInput]
    ∧ compress_dom [hiddenNoSpaceInput] ≠ "" := by
  refine ⟨by decide, by decide, by decide⟩

/-- C5 amended: every line of the snapshot (`compress_dom` emits
`compressLines` joined by newlines) comes from an element whose type
attribute is not `hidden` and whose lower-cased inline style contains
neither `'display: none'` nor `'visibility: hidden'` — the
space-after-colon spellings that the source checks.  Spellings without
the space are not excluded (see the counterexample). -/
theorem snapshot_excludes_spaced_hidden (els : List DomElement) (line : String)
    (h : line ∈ compressLines els) :
    ∃ e, e ∈ els ∧ line = elLine e
      ∧ strContains (lowerString e.style) "display: none" = false
      ∧ strContains (lowerString e.style) "visibility: hidden" = false
      ∧ e.typeAttr ≠ some "hidden" := by
  induction els with
  | nil => simp [compressLines] at h
  | cons e rest ih =>
    rw [compressLines] at h
    split at h
    · obtain ⟨x, hx, hrest⟩ := ih h
      exact ⟨x, List.mem_cons_of_mem _ hx, hrest⟩
    · split at h
      · obtain ⟨x, hx, hrest⟩ := ih h
        exact ⟨x, List.mem_cons_of_mem _ hx, hrest⟩
      · rename_i hstyle htype
        split at h
        · rcases List.mem_cons.mp h with rfl | hmem
          · refine ⟨e, List.mem_cons_self e rest, rfl, ?_, ?_, ?_⟩
            · cases hd : strContains (lowerString e.style) "display: none" with
              | false => rfl
              | true => exact absurd (by rw [hd]; simp) hstyle
            · cases hv : strContains (lowerString e.style) "visibility: hidden" with
              | false => rfl
              | true => exact absurd (by rw [hv]; simp) hstyle
            · intro hcontra
              exact htype (by rw [hcontra]; rfl)
          · obtain ⟨x, hx, hrest⟩ := ih hmem
            exact ⟨x, List.mem_cons_of_mem _ hx, hrest⟩
        · obtain ⟨x, hx, hrest⟩ := ih h
          exact ⟨x, List.mem_cons_of_mem _ hx, hrest⟩

/-- A plainly visible submit button. -/
def visibleButton : DomElement :=
  { tag := "button", style := "", idAttr := none, nameAttr := none,
    typeAttr := none, placeholderAttr := none, valueAttr := none,
    text := "Submit", xpath := "/html/body/button" }

/-- Witness for `snapshot_excludes_spaced_hidden` on the one-line
snapshot of a visible button. -/
theorem snapshot_excludes_spaced_hidden_witness :
    ∃ e, e ∈ [visibleButton] ∧ elLine visibleButton = elLine e
      ∧ strContains (lowerString e.style) "display: none" = false
      ∧ strContains (lowerString e.style) "visibility: hidden" = false
      ∧ e.typeAttr ≠ some "hidden" :=
  snapshot_excludes_spaced_hidden [visibleButton] (elLine visibleButton) (by decide)

/-- C9 counterexample: claimer A runs its SELECT (reading job 1 as
PENDING), claimer B then claims job 1, B's worker finishes it as FAILED,
and only then does A's stale UPDATE (`WHERE id = ?`, no status
condition) execute — moving the job from the terminal FAILED back to
IN_PROGRESS, a backward transition. -/
theorem stale_claim_backward_transition_cex :
    selectPending db1 = some job1
    ∧ statusOf (update_job_status 1 Status.FAILED "Agent timed out or crashed."
        (updateClaim 1 db1)) 1 = some Status.FAILED
    ∧ statusOf (updateClaim 1 (update_job_status 1 Status.FAILED
        "Agent timed out or crashed." (updateClaim 1 db1))) 1
      = some Status.IN_PROGRESS
    ∧ statusLe Status.FAILED Status.IN_PROGRESS = false := by
  refine ⟨rfl, rfl, rfl, rfl⟩

theorem statusLe_refl (s : Status) : statusLe s s = true := by
  cases s <;> rfl

theorem ostatusLe_refl (o : Option Status) : ostatusLe o o = true := by
  cases o with
  | none => rfl
  | some s => exact statusLe_refl s

/-- `find?` by id commutes with mapping an id-preserving update over the
table. -/
theorem find?_id_map (l : List Job) (upd : Job → Job)
    (hid : ∀ j, (upd j).id = j.id) (jid : Nat) :
    (l.map upd).find? (fun x => x.id == jid)
      = (l.find? (fun x => x.id == jid)).map upd := by
  rw [List.find?_map]
  have hp : ((fun x : Job => x.id == jid) ∘ upd) = (fun x : Job => x.id == jid) := by
    funext j
    simp [Function.comp, hid j]
  rw [hp]

/-- With unique ids, the id lookup of a member row returns that row. -/
theorem find?_id_of_nodup (l : List Job)
    (hnd : (l.map (fun j => j.id)).Nodup) (j : Job) (hj : j ∈ l) :
    l.find? (fun x => x.id == j.id) = some j := by
  induction l with
  | nil => simp at hj
  | cons a rest ih =>
    rw [List.map_cons, List.nodup_cons] at hnd
    rcases List.mem_cons.mp hj with rfl | hmem
    · simp [List.find?]
    · have hne : (a.id == j.id) = false := by
        cases hbe : (a.id == j.id) with
        | false => rfl
        | true =>
          exfalso
          have hid : a.id = j.id := by simpa using hbe
          apply hnd.1
          rw [hid]
          exact List.mem_map_of_mem _ hmem
      rw [List.find?]
      rw [hne]
      exact ih hnd.2 hmem

/-- The SELECT half of a claim returns a PENDING member row. -/
theorem selectPending_spec (db : DB) (j : Job) (h : selectPending db = some j) :
    j ∈ db.jobs ∧ j.status = Status.PENDING := by
  have hm : j ∈ db.jobs.filter (fun x => x.status == Status.PENDING) :=
    List.argmin_mem (Option.mem_def.mpr h)
  have hmf := List.mem_filter.mp hm
  refine ⟨hmf.1, ?_⟩
  simpa using hmf.2

/-- Enqueue never lowers any row's status: it only appends a fresh
PENDING row. -/
theorem add_status_mono (db : DB) (f : Bool) (u t c : String) (jid : Nat) :
    ostatusLe (statusOf db jid) (statusOf (add_job_to_queue f u t c db).2 jid)
      = true := by
  cases f with
  | true => exact ostatusLe_refl _
  | false =>
    by_cases h : urlExists db u
    · rw [add_dup_eq db u t c h]
      exact ostatusLe_refl _
    · rw [add_new_eq db u t c (by simpa using h)]
      unfold statusOf
      rw [List.find?_append]
      cases hf : db.jobs.find? (fun x => x.id == jid) with
      | none => rfl
      | some x =>
        show statusLe x.status x.status = true
        exact statusLe_refl _

/-- The status a claim-then-terminal-update leaves on each row: the
claimed id gets the terminal status, every other row keeps its own. -/
theorem statusOf_claim_then_update (db : DB) (i : Nat) (st : Status)
    (msg : String) (jid : Nat) :
    statusOf (update_job_status i st msg (updateClaim i db)) jid
      = (db.jobs.find? (fun x => x.id == jid)).map
          (fun x => if x.id == i then st else x.status) := by
  unfold statusOf update_job_status updateClaim
  rw [List.map_map]
  rw [find?_id_map]
  · rw [Option.map_map]
    congr 1
    funext x
    by_cases hx : x.id == i
    · simp [Function.comp, hx]
    · simp [Function.comp, hx]
  · intro x
    simp only [Function.comp]
    by_cases hx : x.id == i
    · simp [hx]
    · simp [hx]

/-- One worker cycle (atomic claim followed by the terminal status
write) never lowers any row's status, provided ids are unique (the
PRIMARY KEY invariant). -/
theorem workerCycle_status_mono (env : ToolEnv) (oracle : Nat → Decision)
    (f : Bool) (db : DB) (jid : Nat)
    (hnd : (db.jobs.map (fun j => j.id)).Nodup) :
    ostatusLe (statusOf db jid) (statusOf (workerCycle env oracle f db) jid)
      = true := by
  cases f with
  | true => exact ostatusLe_refl _
  | false =>
    cases hsel : selectPending db with
    | none =>
      have hw : workerCycle env oracle false db = db := by
        simp only [workerCycle, get_next_pending_job, hsel, Bool.false_eq_true,
          if_false]
      rw [hw]
      exact ostatusLe_refl _
    | some j =>
      obtain ⟨hjmem, hjpend⟩ := selectPending_spec db j hsel
      have hraf : run_application_flow env oracle = false := rfl
      have hw : workerCycle env oracle false db
          = update_job_status j.id Status.FAILED "Agent timed out or crashed."
              (updateClaim j.id db) := by
        simp only [workerCycle, get_next_pending_job, hsel, workerHandleJob,
          hraf, Bool.false_eq_true, if_false]
      rw [hw, statusOf_claim_then_update]
      unfold statusOf
      cases hf : db.jobs.find? (fun x => x.id == jid) with
      | none => rfl
      | some x =>
        show statusLe x.status (if x.id == j.id then Status.FAILED else x.status)
          = true
        by_cases hx : x.id == j.id
        · rw [if_pos hx]
          have hxid : x.id = jid := by
            have hpx := List.find?_some hf
            simpa using hpx
          have hxj : x = j := by
            have hfind := find?_id_of_nodup db.jobs hnd j hjmem
            have hjid : j.id = jid := by
              have : x.id = j.id := by simpa using hx
              omega
            rw [hjid] at hfind
            rw [hf] at hfind
            exact Option.some_injective _ hfind
          rw [hxj, hjpend]
          rfl
        · rw [if_neg hx]
          exact statusLe_refl _

/-- The stale claim UPDATE can only write IN_PROGRESS; it never writes
PENDING into any row. -/
theorem updateClaim_no_pending_write (db : DB) (i jid : Nat)
    (h : statusOf (updateClaim i db) jid = some Status.PENDING) :
    statusOf db jid = some Status.PENDING := by
  unfold statusOf updateClaim at h
  unfold statusOf
  rw [find?_id_map] at h
  · cases hf : db.jobs.find? (fun x => x.id == jid) with
    | none => rw [hf] at h; simp at h
    | some x =>
      rw [hf] at h
      simp only [Option.map] at h ⊢
      by_cases hx : x.id == i
      · simp [hx] at h
      · simpa [hx] using h
  · intro x
    by_cases hx : x.id == i
    · simp [hx]
    · simp [hx]

/-- A terminal `update_job_status` (any non-PENDING status, the only
form the worker issues) never writes PENDING into any row. -/
theorem update_status_no_pending_write (db : DB) (i : Nat) (st : Status)
    (msg : String) (jid : Nat) (hst : st ≠ Status.PENDING)
    (h : statusOf (update_job_status i st msg db) jid = some Status.PENDING) :
    statusOf db jid = some Status.PENDING := by
  unfold statusOf update_job_status at h
  unfold statusOf
  rw [find?_id_map] at h
  · cases hf : db.jobs.find? (fun x => x.id == jid) with
    | none => rw [hf] at h; simp at h
    | some x =>
      rw [hf] at h
      simp only [Option.map] at h ⊢
      by_cases hx : x.id == i
      · rw [if_pos hx] at h
        exact absurd (by simpa using h) hst
      · simpa [hx] using h
  · intro x
    by_cases hx : x.id == i
    · simp [hx]
    · simp [hx]

/-- C9 amended: under non-interleaved operation every system operation
(enqueue; one worker cycle of atomic claim plus terminal status write)
moves each row's status only forward along
`PENDING → IN_PROGRESS → {SUCCESS, FAILED}`, and no operation —
including the two halves of a claim executed separately — ever writes a
row back to PENDING.  With interleaved claimers, however, a stale claim
UPDATE can move a terminal row back to IN_PROGRESS (see the
counterexample), because the UPDATE's WHERE clause checks only the id. -/
theorem status_transitions_monotonic :
    (∀ db f u t c jid,
      ostatusLe (statusOf db jid) (statusOf (add_job_to_queue f u t c db).2 jid)
        = true)
    ∧ (∀ env oracle f db jid, (db.jobs.map (fun j => j.id)).Nodup →
        ostatusLe (statusOf db jid) (statusOf (workerCycle env oracle f db) jid)
          = true)
    ∧ (∀ db i jid, statusOf (updateClaim i db) jid = some Status.PENDING →
        statusOf db jid = some Status.PENDING)
    ∧ (∀ db i st msg jid, st ≠ Status.PENDING →
        statusOf (update_job_status i st msg db) jid = some Status.PENDING →
        statusOf db jid = some Status.PENDING) :=
  ⟨fun db f u t c jid => add_status_mono db f u t c jid,
   fun env oracle f db jid hnd => workerCycle_status_mono env oracle f db jid hnd,
   fun db i jid h => updateClaim_no_pending_write db i jid h,
   fun db i st msg jid hst h => update_status_no_pending_write db i st msg jid hst h⟩

/-- Witness for `status_transitions_monotonic` at the one-job queue. -/
theorem status_transitions_monotonic_witness :
    ostatusLe (statusOf db1 1)
        (statusOf (add_job_to_queue false "https://ex.com/job/2" "T" "C" db1).2 1)
      = true
    ∧ ostatusLe (statusOf db1 1)
        (statusOf (workerCycle trivEnv parseErrOracle false db1) 1) = true
    ∧ statusOf db1 1 = some Status.PENDING :=
  ⟨status_transitions_monotonic.1 db1 false "https://ex.com/job/2" "T" "C" 1,
   status_transitions_monotonic.2.1 trivEnv parseErrOracle false db1 1 (by decide),
   status_transitions_monotonic.2.2.2 db1 2 Status.FAILED "m" 1 (by decide) (by decide)⟩

end Fidbach
